import Mathlib

unseal Rat.add Rat.mul Rat.sub Rat.inv

/-!
Shallow embedding of the CV ranking engine (`src/cv_ranking.py`) of the
SmartHire-NextGen repository.

Modelling conventions:
* Python strings are lists of characters (`String.data`); `str.lower()` is
  modelled with `Char.toLower`, which agrees with Python on the ASCII range
  covered by the engine's keyword tables and by every concrete input used here.
* Python floats are modelled as exact rationals (`ℚ`); `round(x, 2)` is
  modelled as exact round-half-to-even at two decimals.
* A Python value that is `None` or the empty string is modelled by the empty
  list `[]` (both are falsy wherever the engine tests them).
* Dictionaries with fixed keys become structures; a missing key defaults to
  the empty collection, exactly as the engine's `.get` calls do.
-/

/-- Strings are modelled as lists of characters. -/
abbrev Str := List Char

/-- Floor of a rational (numerator and denominator are always reduced with a
positive denominator, so flooring is flooring integer division). -/
def qfloor (q : ℚ) : ℤ := Int.fdiv q.num q.den

/-- Round-half-to-even to the nearest integer, the rounding used by Python's
built-in `round`. -/
def roundHalfEven (q : ℚ) : ℤ :=
  if q - (qfloor q : ℚ) < 1/2 then qfloor q
  else if 1/2 < q - (qfloor q : ℚ) then qfloor q + 1
  else if qfloor q % 2 = 0 then qfloor q else qfloor q + 1

/-- Python `round(x, 2)` on the exact rational model. -/
def round2 (q : ℚ) : ℚ := ((roundHalfEven (q * 100) : ℤ) : ℚ) / 100

/-- Python `str.lower()` (ASCII range). -/
def lowerStr (s : Str) : Str := s.map Char.toLower

/-- Whitespace test backing Python `str.strip()` and the regex class `\s`. -/
def isWsChar (c : Char) : Bool := c.isWhitespace

/-- Python `str.strip()`. -/
def stripStr (s : Str) : Str :=
  ((s.dropWhile isWsChar).reverse.dropWhile isWsChar).reverse

/-- Is the first string a prefix of the second? -/
def isPrefixStr : Str → Str → Bool
  | [], _ => true
  | _ :: _, [] => false
  | a :: as, b :: bs => a == b && isPrefixStr as bs

/-- Python substring test `needle in hay`. -/
def containsSub : Str → Str → Bool
  | needle, [] => needle == ([] : Str)
  | needle, c :: rest => isPrefixStr needle (c :: rest) || containsSub needle rest

/-- Python `str.split()` (split on whitespace runs, dropping empty pieces):
auxiliary accumulator version. -/
def splitWsAux : Str → Str → List Str
  | acc, [] => if acc = [] then [] else [acc.reverse]
  | acc, c :: rest =>
    if isWsChar c then
      if acc = [] then splitWsAux [] rest else acc.reverse :: splitWsAux [] rest
    else splitWsAux (c :: acc) rest

/-- Python `str.split()`. -/
def splitWs (s : Str) : List Str := splitWsAux [] s

/-- Numeric value of a digit character. -/
def digitVal (c : Char) : ℕ := c.toNat - 48

/-- Numeric value of the digit group captured by `(\d+)`. -/
def natOfDigits (s : Str) : ℕ := s.foldl (fun n c => 10 * n + digitVal c) 0

/-- One attempt of the regex `(\d+)\s*(?:mois|month|months?)` anchored at the
head of the string: a nonempty digit run, optional whitespace, then the
literal `mois` or `month` (the alternative `months?` is subsumed by `month`). -/
def monthsMatchHere (s : Str) : Option ℕ :=
  let ds := s.takeWhile Char.isDigit
  if ds = [] then none
  else
    let rest := (s.dropWhile Char.isDigit).dropWhile isWsChar
    if isPrefixStr ("mois".data) rest || isPrefixStr ("month".data) rest then
      some (natOfDigits ds)
    else none

/-- `re.search` of the duration regex: leftmost match wins; returns the
captured digit group. -/
def findMonthsNum : Str → Option ℕ
  | [] => none
  | c :: rest =>
    match monthsMatchHere (c :: rest) with
    | some n => some n
    | none => findMonthsNum rest

/-- Word-character test backing the regex class `\b` (ASCII range). -/
def isWordChar (c : Char) : Bool := c.isAlphanum || c == '_'

/-- `re.findall(r'\b(20\d{2})\b', s)`: every occurrence of a four-digit year
`20dd` flanked by word boundaries, in order of occurrence.  The argument
`prev` carries the character just before the current position (none at the
start of the string).  Matches of this pattern can never overlap, because any
later start inside a match is preceded by a digit, which fails `\b`. -/
def findYearsAux : Option Char → Str → List ℕ
  | _, [] => []
  | prev, c :: rest =>
    let tailYears := findYearsAux (some c) rest
    match c, rest with
    | '2', '0' :: d1 :: d2 :: r =>
      if (match prev with | none => true | some p => !isWordChar p) &&
         d1.isDigit && d2.isDigit &&
         (match r with | [] => true | x :: _ => !isWordChar x) then
        (2000 + 10 * digitVal d1 + digitVal d2) :: tailYears
      else tailYears
    | _, _ => tailYears

/-- All `\b20\d{2}\b` matches in a period string. -/
def findYears (s : Str) : List ℕ := findYearsAux none s

/-- The `month_names` table of `extract_duration_months`, in the source's
insertion order (English names first, then French). -/
def month_names : List (Str × ℕ) := [
  ("january".data, 1), ("february".data, 2), ("march".data, 3),
  ("april".data, 4), ("may".data, 5), ("june".data, 6), ("july".data, 7),
  ("august".data, 8), ("september".data, 9), ("october".data, 10),
  ("november".data, 11), ("december".data, 12),
  ("janvier".data, 1), ("fevrier".data, 2), ("mars".data, 3),
  ("avril".data, 4), ("mai".data, 5), ("juin".data, 6), ("juillet".data, 7),
  ("aout".data, 8), ("septembre".data, 9), ("octobre".data, 10),
  ("novembre".data, 11), ("decembre".data, 12)]

/-- Month numbers whose names occur in the lowercased period string, in table
order (the source iterates the dict in insertion order). -/
def monthsFound (periodLower : Str) : List ℕ :=
  (month_names.filter (fun p => containsSub p.1 periodLower)).map (fun p => p.2)

/-- `extract_duration_months` (cv_ranking.py lines 106-158).  `duration = []`
models Python `None` as well as the empty string (both falsy there). -/
def extract_duration_months (period : Str) (duration : Str) : ℚ :=
  let fromDuration : Option ℕ :=
    if duration ≠ [] then findMonthsNum (lowerStr duration) else none
  match fromDuration with
  | some n => (n : ℚ)
  | none =>
    if period = [] then 0
    else
      let pl := lowerStr period
      if containsSub ("present".data) pl || containsSub ("en cours".data) pl ||
         containsSub ("in progress".data) pl then 2
      else
        match findYears period with
        | y1 :: y2 :: _ => ((y2 : ℚ) - (y1 : ℚ)) * 12
        | _ =>
          match monthsFound pl with
          | m1 :: m2 :: _ => (((m2 : ℤ) - (m1 : ℤ)).natAbs : ℚ)
          | _ => 2

/-- `normalize_company_name` (cv_ranking.py lines 83-87). -/
def normalize_company_name (company : Str) : Str := stripStr (lowerStr company)

/-- `normalize_skill` (cv_ranking.py lines 161-165): lowercase, strip, then
remove every period and every space. -/
def normalize_skill (skill : Str) : Str :=
  ((stripStr (lowerStr skill)).filter (fun c => c ≠ '.')).filter (fun c => c ≠ ' ')

/-- The `skill_variations` groups of `match_skills` (only membership of both
sides in a common group is ever tested, so the dict keys are immaterial). -/
def skill_variations : List (List Str) := [
  ["javascript".data, "js".data, "ecmascript".data],
  ["java".data],
  ["typescript".data, "ts".data],
  ["python".data, "py".data],
  ["springboot".data, "spring".data],
  ["nodejs".data, "node".data],
  ["reactjs".data, "react".data],
  ["vuejs".data, "vue".data],
  ["angularjs".data, "angular".data]]

/-- Inner loop of `match_skills`: does one normalized required skill match any
normalized candidate skill (exact equality, shared variation group, or the
guarded fuzzy containment)? -/
def skillMatchOne (candNorm : List Str) (req : Str) : Bool :=
  candNorm.any (fun cand =>
    req == cand ||
    skill_variations.any (fun g => g.contains req && g.contains cand) ||
    (decide (req.length > 3) && decide (cand.length > 3) &&
      (containsSub req cand || containsSub cand req) &&
      decide (max req.length cand.length - min req.length cand.length ≤ 4)))

/-- `match_skills` (cv_ranking.py lines 168-219): each required skill counts
at most once (the inner loop breaks at the first matching candidate skill). -/
def match_skills (candidate_skills required_skills : List Str) : ℕ × ℕ :=
  if required_skills = [] then (0, 0)
  else
    let candNorm := candidate_skills.map normalize_skill
    ((required_skills.map normalize_skill).countP (fun r => skillMatchOne candNorm r),
      required_skills.length)

/-- Tier-1 keyword list of `COMPANY_TIERS` (cv_ranking.py lines 19-29). -/
def tier1_companies : List Str := [
  "google".data, "microsoft".data, "amazon".data, "apple".data, "meta".data,
  "facebook".data, "netflix".data, "oracle".data, "salesforce".data,
  "adobe".data, "nvidia".data, "intel".data, "ibm".data, "cisco".data,
  "vmware".data, "palantir".data, "uber".data, "airbnb".data, "linkedin".data,
  "twitter".data, "x".data, "tesla".data, "spacex".data, "spotify".data,
  "snap".data, "snapchat".data, "pinterest".data, "reddit".data,
  "dropbox".data, "twitch".data, "github".data, "atlassian".data,
  "slack".data, "zoom".data, "bytedance".data, "tiktok".data, "tencent".data,
  "alibaba".data]

/-- Tier-2 keyword list of `COMPANY_TIERS` (cv_ranking.py lines 31-39). -/
def tier2_companies : List Str := [
  "capgemini".data, "accenture".data, "atos".data, "cgi".data,
  "sopra steria".data, "deloitte".data, "pwc".data, "kpmg".data, "ey".data,
  "ernst & young".data, "thales".data, "dassault".data, "sopra".data,
  "steria".data, "orange".data, "bouygues".data, "hp".data, "dell".data,
  "lenovo".data, "siemens".data, "bosch".data, "philips".data]

/-- Tier-3 keyword list of `COMPANY_TIERS` (cv_ranking.py lines 41-50). -/
def tier3_companies : List Str := [
  "sap".data, "red hat".data, "redhat".data, "mongodb".data, "elastic".data,
  "databricks".data, "snowflake".data, "datadog".data, "splunk".data,
  "servicenow".data, "workday".data, "zendesk".data, "shopify".data,
  "stripe".data, "square".data, "paypal".data, "ebay".data, "booking".data,
  "expedia".data, "trivago".data, "delivery hero".data, "doordash".data,
  "instacart".data, "lyft".data, "grab".data, "gojek".data, "yelp".data,
  "glassdoor".data]

/-- Tier-4 keyword list of `COMPANY_TIERS` (cv_ranking.py lines 52-58). -/
def tier4_companies : List Str := [
  "criteo".data, "blablacar".data, "doctolib".data, "veepee".data,
  "vinted".data, "mano mano".data, "backmarket".data, "qonto".data,
  "alan".data, "ledger".data, "swile".data, "payfit".data,
  "contentsquare".data, "algolia".data, "talend".data]

/-- `COMPANY_TIERS` (cv_ranking.py lines 17-65): ordered list of
(tier name, keyword list, score multiplier); tier 5 has no keywords and is
the default for unknown companies. -/
def COMPANY_TIERS : List (Str × List Str × ℚ) := [
  ("tier1".data, tier1_companies, 1),
  ("tier2".data, tier2_companies, 8/10),
  ("tier3".data, tier3_companies, 67/100),
  ("tier4".data, tier4_companies, 47/100),
  ("tier5".data, [], 33/100)]

/-- `get_company_tier` (cv_ranking.py lines 90-103): first tier, in table
order, one of whose keywords is a substring of the normalized name; tier 5
with multiplier 0.33 when none matches. -/
def get_company_tier (company : Str) : Str × ℚ :=
  let norm := normalize_company_name company
  match COMPANY_TIERS.find? (fun t => t.2.1.any (fun kw => containsSub kw norm)) with
  | some t => (t.1, t.2.2)
  | none => ("tier5".data, 33/100)

/-- `RECOGNIZED_CERTIFICATIONS` (cv_ranking.py lines 72-76). -/
def RECOGNIZED_CERTIFICATIONS : List Str := [
  "aws".data, "azure".data, "gcp".data, "google cloud".data,
  "kubernetes".data, "docker".data, "scrum".data, "pmp".data, "cisco".data,
  "ccna".data, "ccnp".data, "comptia".data, "itil".data, "oracle".data,
  "salesforce".data, "microsoft".data, "red hat".data, "mongodb".data]

/-- One `experience` entry: `exp.get("company"/"role"/"period"/"duration"/
"technologies", default)`.  `duration = []` models a missing or empty field. -/
structure Experience where
  company : Str
  role : Str
  period : Str
  duration : Str
  technologies : List Str
deriving DecidableEq

/-- One `projects` entry. -/
structure Project where
  title : Str
  description : Str
  technologies : List Str
deriving DecidableEq

/-- One `education` entry. -/
structure EducationEntry where
  degree : Str
  field : Str
  institution : Str
deriving DecidableEq

/-- The `skills` mapping, with the eight category keys read by the engine;
a missing key is an empty list. -/
structure Skills where
  programming_languages : List Str
  frameworks : List Str
  web_technologies : List Str
  mobile_technologies : List Str
  databases : List Str
  devops_tools : List Str
  data_science : List Str
  other : List Str
deriving DecidableEq

/-- A candidate profile.  `full_name` models
`candidate.get("personal_info", {}).get("full_name", "Unknown")` and `email`
the same lookup for `email` (`[]` = missing). -/
structure Candidate where
  full_name : Str
  email : Str
  experience : List Experience
  projects : List Project
  skills : Skills
  education : List EducationEntry
  certifications : List Str
deriving DecidableEq

/-- The `job_requirements` record; `role = []` and `field = []` model Python
`None` (and the empty string), `required_skills = []` the empty list, so the
all-empty record models an absent `job_requirements` argument. -/
structure JobRequirements where
  role : Str
  required_skills : List Str
  field : Str
deriving DecidableEq

/-- Flattening of the eight skill categories, in the source's `extend` order
(`score_technical_skills` lines 387-395, identically in
`score_signal_consistency` lines 708-716). -/
def all_skills_of (s : Skills) : List Str :=
  s.programming_languages ++ s.frameworks ++ s.web_technologies ++
  s.mobile_technologies ++ s.databases ++ s.devops_tools ++ s.data_science ++
  s.other

/-- Company-reputation part of one experience (cv_ranking.py lines 260-262):
`15.0 * tier_multiplier`. -/
def company_part (company : Str) : ℚ := 15 * (get_company_tier company).2

/-- The role-keyword count of the `elif job_role` branch (cv_ranking.py
lines 275-278): keywords of the normalized job role, longer than 3
characters, occurring in the normalized experience role. -/
def role_kw_matches (jobRole role : Str) : ℕ :=
  ((splitWs (normalize_company_name jobRole)).filter (fun kw =>
    containsSub kw (normalize_company_name role) && decide (kw.length > 3))).length

/-- Role-relevance part of one experience (cv_ranking.py lines 264-283). -/
def role_part (jobRole : Str) (required : List Str) (role : Str)
    (technologies : List Str) : ℚ :=
  if required ≠ [] ∧ technologies ≠ [] then
    if (match_skills technologies required).1 > 0 then
      10 * ((match_skills technologies required).1 : ℚ) /
        ((match_skills technologies required).2 : ℚ)
    else 0
  else if jobRole ≠ [] then
    if role_kw_matches jobRole role > 0 then
      10 * ((role_kw_matches jobRole role) : ℚ) /
        ((max (splitWs (normalize_company_name jobRole)).length 1 : ℕ) : ℚ)
    else 0
  else 5

/-- Duration bucket of one experience (cv_ranking.py lines 287-299). -/
def duration_bucket (m : ℚ) : ℚ :=
  if m < 3 then 2
  else if 3 ≤ m ∧ m ≤ 6 then 5
  else if 6 < m ∧ m ≤ 12 then 7
  else if 12 < m ∧ m ≤ 24 then 9
  else if 24 < m ∧ m ≤ 36 then 10
  else 10

/-- Recency bonus of one experience (cv_ranking.py lines 301-320), with the
source's fixed reference year 2026. -/
def recency_bonus (period : Str) : ℚ :=
  if period = [] then 0
  else
    let pl := lowerStr period
    if containsSub ("present".data) pl || containsSub ("en cours".data) pl ||
       containsSub ("in progress".data) pl then 2
    else
      match (findYears period).getLast? with
      | some endYear =>
        let yearsAgo : ℤ := 2026 - (endYear : ℤ)
        if yearsAgo ≤ 1 then 3/2
        else if yearsAgo ≤ 2 then 1
        else if yearsAgo ≥ 5 then -1
        else 0
      | none => 0

/-- Duration part of one experience: bucket plus recency bonus, clamped to 10
from above (cv_ranking.py line 322). -/
def duration_part (period : Str) (duration : Str) : ℚ :=
  min (duration_bucket (extract_duration_months period duration) +
    recency_bonus period) 10

/-- Per-experience score: company + role + duration parts
(cv_ranking.py line 326). -/
def exp_entry_score (jobRole : Str) (required : List Str) (e : Experience) : ℚ :=
  company_part e.company + role_part jobRole required e.role e.technologies +
    duration_part e.period e.duration

/-- Descending insertion of one rational into a sorted list. -/
def insertDescQ (x : ℚ) : List ℚ → List ℚ
  | [] => [x]
  | y :: ys => if x ≥ y then x :: y :: ys else y :: insertDescQ x ys

/-- `sorted(scores, reverse=True)` on a list of rationals (the descending
sorted list of a multiset of plain numbers is unique, so any sorting
algorithm models the source's). -/
def sortDescQ : List ℚ → List ℚ
  | [] => []
  | x :: xs => insertDescQ x (sortDescQ xs)

/-- Aggregation of the per-experience scores (cv_ranking.py lines 339-359):
one entry is capped at 35; several entries take 50% best, 50% average of the
rest, plus 1.5 per extra entry up to 3, capped at 35. -/
def aggregate_exp_scores (scores : List ℚ) : ℚ :=
  match scores with
  | [] => 0
  | [s] => min s 35
  | _ :: _ :: _ =>
    match sortDescQ scores with
    | [] => 0
    | best :: others =>
      let weighted :=
        if others ≠ [] then best * (1/2) + (others.sum / (others.length : ℚ)) * (1/2)
        else best
      let bonus := ((min (scores.length - 1) 3 : ℕ) : ℚ) * (3/2)
      min (weighted + bonus) 35

/-- `score_experience_quality` (cv_ranking.py lines 226-365), score component
only. -/
def score_experience_quality (experiences : List Experience) (jobRole : Str)
    (required : List Str) : ℚ :=
  match experiences with
  | [] => 0
  | _ :: _ =>
    round2 (aggregate_exp_scores (experiences.map (exp_entry_score jobRole required)))

/-- The per-experience `details` entries (company and rounded
`experience_score`) that the explanation builder of `rank_candidates` reads
(cv_ranking.py lines 329-337 and 899-906). -/
def exp_details (experiences : List Experience) (jobRole : Str)
    (required : List Str) : List (Str × ℚ) :=
  experiences.map (fun e => (e.company, round2 (exp_entry_score jobRole required e)))

/-- Core-skills part of `score_technical_skills` (cv_ranking.py lines
403-420). -/
def tech_core (allSkills : List Str) (required : List Str) : ℚ :=
  if required ≠ [] then
    if (match_skills allSkills required).2 > 0 then
      15 * ((match_skills allSkills required).1 : ℚ) /
        ((match_skills allSkills required).2 : ℚ)
    else 0
  else min 10 ((allSkills.length : ℚ) * (1/2))

/-- Both-direction normalized containment between a skill and a technology,
used by the depth, coherence and realism checks. -/
def skillTechOverlap (a b : Str) : Bool :=
  containsSub (normalize_skill a) (normalize_skill b) ||
  containsSub (normalize_skill b) (normalize_skill a)

/-- Depth part of `score_technical_skills` (cv_ranking.py lines 422-440). -/
def tech_depth (skills : Skills) (allSkills : List Str)
    (experience_technologies : List Str) : ℚ :=
  let usage : ℚ :=
    if experience_technologies ≠ [] then
      let skillUsage := allSkills.countP (fun sk =>
        experience_technologies.any (fun t => skillTechOverlap sk t))
      if allSkills.length > 0 then 5 * (skillUsage : ℚ) / (allSkills.length : ℚ)
      else 0
    else 0
  let withCombo := usage +
    (if skills.programming_languages ≠ [] ∧ skills.frameworks ≠ [] then 2 else 0)
  min withCombo 5

/-- `score_technical_skills` (cv_ranking.py lines 368-457), score component
only.  The source returns 0 both for an empty skills dict and for a dict
whose categories are all empty; both cases are `all_skills_of skills = []`
here. -/
def score_technical_skills (skills : Skills) (required : List Str)
    (experience_technologies : List Str) : ℚ :=
  let allSkills := all_skills_of skills
  if allSkills = [] then 0
  else
    round2 (min (tech_core allSkills required +
      tech_depth skills allSkills experience_technologies) 25)

/-- The `matched` count that the explanation builder reads from the
`core_match` details of `score_technical_skills` (`.get("matched", 0)`,
absent unless `required_skills` was given and some skills were listed). -/
def tech_matched_detail (skills : Skills) (required : List Str) : ℕ :=
  if all_skills_of skills ≠ [] ∧ required ≠ [] then
    (match_skills (all_skills_of skills) required).1
  else 0

/-- The `fake_keywords` list of `score_projects_impact` (cv_ranking.py line
497). -/
def fake_keywords : List Str :=
  ["example".data, "demo".data, "test".data, "tutorial".data,
   "hello world".data]

/-- Fake-project detection (cv_ranking.py lines 495-499): some fake keyword
occurs in the lowercased title or description. -/
def is_fake_project (p : Project) : Bool :=
  fake_keywords.any (fun kw =>
    containsSub kw (lowerStr p.title) || containsSub kw (lowerStr p.description))

/-- Loop state of the per-project pass of `score_projects_impact`:
accumulated fake penalties, quality indicators, relevance bonus and the
count of projects matching required skills. -/
structure ProjAcc where
  penalty : ℚ
  quality : ℕ
  relevance : ℚ
  withRel : ℕ
deriving DecidableEq

/-- One iteration of the project loop (cv_ranking.py lines 490-541).  A fake
project subtracts 2 and is skipped (`continue`) before any quality or
relevance counting.  The unused `total_technologies` accumulator of the
source is not modelled. -/
def project_step (required : List Str) (experiences : List Experience)
    (acc : ProjAcc) (p : Project) : ProjAcc :=
  if is_fake_project p then { acc with penalty := acc.penalty - 2 }
  else
    let q1 : ℕ := if p.description ≠ [] ∧ p.description.length > 50 then 1 else 0
    let q2 : ℕ := if p.technologies ≠ [] ∧ p.technologies.length ≥ 3 then 1 else 0
    let rel : ℚ × ℕ × ℕ :=
      if required ≠ [] ∧ p.technologies ≠ [] then
        let mt := match_skills p.technologies required
        if mt.1 > 0 then
          (if mt.1 ≥ 3 then (5/2 : ℚ) else if mt.1 = 2 then 3/2 else 1, 1, 1)
        else (0, 0, 0)
      else (0, 0, 0)
    let expTechs := (experiences.map Experience.technologies).flatten
    let q4 : ℕ :=
      if experiences ≠ [] ∧ p.technologies ≠ [] ∧
         p.technologies.countP (fun tech =>
           expTechs.any (fun et => skillTechOverlap tech et)) > 0 then 1
      else 0
    { penalty := acc.penalty,
      quality := acc.quality + q1 + q2 + rel.2.2 + q4,
      relevance := acc.relevance + rel.1,
      withRel := acc.withRel + rel.2.1 }

/-- Base score by volume and quality ratio (cv_ranking.py lines 543-565). -/
def projects_base (n : ℕ) (quality : ℕ) : ℚ :=
  if n ≥ 3 ∧ quality ≥ n * 2 then 15
  else if n ≥ 3 ∧ quality ≥ n then 13
  else if n ≤ 2 ∧ quality ≥ n * 2 then 12
  else if n ≤ 2 ∧ quality ≥ n then 10
  else if n > 5 then 8
  else 6

/-- Raw accumulated projects score before the final clamp (cv_ranking.py
lines 481-581): fake penalties, base score, capped relevance bonus, and the
relevance penalty. -/
def projects_raw (projects : List Project) (experiences : List Experience)
    (required : List Str) : ℚ :=
  let acc := projects.foldl (project_step required experiences)
    ⟨0, 0, 0, 0⟩
  let relB := min acc.relevance 5
  let relP : ℚ :=
    if required ≠ [] ∧ acc.withRel = 0 then -6
    else if required ≠ [] ∧ (acc.withRel : ℚ) < (projects.length : ℚ) / 2 then -3
    else 0
  acc.penalty + projects_base projects.length acc.quality + relB + relP

/-- `score_projects_impact` (cv_ranking.py lines 460-593), score component
only: 5.0 for no projects, otherwise the raw score clamped to [0, 20]. -/
def score_projects_impact (projects : List Project)
    (experiences : List Experience) (required : List Str) : ℚ :=
  if projects = [] then 5
  else round2 (max 0 (min (projects_raw projects experiences required) 20))

/-- Institution keywords of `score_education_certifications` (cv_ranking.py
line 653). -/
def institution_keywords : List Str :=
  ["engineering".data, "école".data, "school".data, "university".data,
   "université".data]

/-- Does an education entry's field share a >3-character keyword with the job
field (cv_ranking.py lines 626-629)? -/
def edu_field_relevant (jobField : Str) (e : EducationEntry) : Bool :=
  (splitWs (normalize_company_name jobField)).any (fun kw =>
    containsSub kw (normalize_company_name e.field) && decide (kw.length > 3))

/-- The education loop of `score_education_certifications` (cv_ranking.py
lines 616-632): tracks the "highest" degree (the first entry, then overwritten
by every later entry with a nonempty degree) and stops — abandoning that
tracking — at the first entry whose field is relevant to the job field. -/
def edu_scan (jobField : Str) : List EducationEntry → Option EducationEntry →
    Option EducationEntry × Bool
  | [], h => (h, false)
  | e :: rest, h =>
    let h2 := if h.isNone || e.degree ≠ [] then some e else h
    if jobField ≠ [] ∧ edu_field_relevant jobField e then (h2, true)
    else edu_scan jobField rest h2

/-- Degree-level base score (cv_ranking.py lines 635-642). -/
def degree_base (degree : Str) : ℚ :=
  let d := lowerStr degree
  if containsSub ("master".data) d || containsSub ("masters".data) d then 2
  else if containsSub ("bachelor".data) d || containsSub ("licence".data) d then 3/2
  else 1

/-- `score_education_certifications` (cv_ranking.py lines 596-679), score
component only. -/
def score_education_certifications (education : List EducationEntry)
    (certifications : List Str) (jobField : Str) : ℚ :=
  let scan := edu_scan jobField education none
  let raw : ℚ :=
    (if scan.2 then 3 else 0) +
    (match scan.1 with
     | some h => degree_base h.degree
     | none => 0)
  let degree_score := min raw 5
  let instAdd : ℚ :=
    if education ≠ [] ∧ education.any (fun e => institution_keywords.any
        (fun kw => containsSub kw (lowerStr e.institution))) then 3/2
    else 0
  let institution_score := min (degree_score + instAdd - degree_score) 3
  let score := degree_score + institution_score
  let recognized := certifications.countP (fun c =>
    RECOGNIZED_CERTIFICATIONS.any (fun r => containsSub r (lowerStr c)))
  let cert_score : ℚ :=
    if certifications ≠ [] ∧ recognized > 0 then min 2 ((recognized : ℚ) * (1/2))
    else 0
  round2 (min (score + cert_score) 10)

/-- Junior role keywords (cv_ranking.py line 766). -/
def junior_keywords : List Str :=
  ["intern".data, "stage".data, "junior".data, "trainee".data,
   "stagiaire".data]

/-- Senior role keywords (cv_ranking.py line 767). -/
def senior_keywords : List Str :=
  ["senior".data, "lead".data, "architect".data, "manager".data, "chef".data,
   "principal".data, "staff".data]

/-- The space-joined lowercased role strings that the career-logic check
scans (cv_ranking.py lines 765-770). -/
def joined_roles (experiences : List Experience) : Str :=
  List.intercalate [' '] (experiences.map (fun e => lowerStr e.role))

/-- Does some junior keyword occur in the joined role strings? -/
def has_junior_kw (experiences : List Experience) : Bool :=
  junior_keywords.any (fun kw => containsSub kw (joined_roles experiences))

/-- Does some senior keyword occur in the joined role strings? -/
def has_senior_kw (experiences : List Experience) : Bool :=
  senior_keywords.any (fun kw => containsSub kw (joined_roles experiences))

/-- The career-logic issue count (cv_ranking.py lines 758-780): +0.5 when
stuck in junior roles across more than 3 experiences, −0.5 when both junior
and senior keywords appear (clear progression). -/
def career_issues (experiences : List Experience) : ℚ :=
  (if has_junior_kw experiences ∧ ¬has_senior_kw experiences ∧
      experiences.length > 3 then 1/2 else 0) +
  (if has_junior_kw experiences ∧ has_senior_kw experiences then -(1/2) else 0)

/-- The career-logic deduction (cv_ranking.py line 782): the issue count
scaled by 1.5, clamped to [−1.5, 3]. -/
def career_deduction (experiences : List Experience) : ℚ :=
  min (max (career_issues experiences * (3/2)) (-(3/2))) 3

/-- The CV-coherence deduction of `score_signal_consistency` (cv_ranking.py
lines 718-755). -/
def coherence_deduction (c : Candidate) : ℚ :=
  let expTech := (c.experience.map Experience.technologies).flatten
  let allSkills := all_skills_of c.skills
  let ci1 : ℕ :=
    if expTech ≠ [] ∧ allSkills ≠ [] then
      let matchedSkills := allSkills.countP (fun sk =>
        expTech.any (fun t => skillTechOverlap sk t))
      if allSkills.length > 0 then
        if (matchedSkills : ℚ) / (allSkills.length : ℚ) < 3/10 then 2
        else if (matchedSkills : ℚ) / (allSkills.length : ℚ) < 1/2 then 1
        else 0
      else 0
    else 0
  let projTechs := (c.projects.map Project.technologies).flatten
  let ci2 : ℕ :=
    if c.projects ≠ [] ∧ projTechs ≠ [] ∧ allSkills ≠ [] then
      let matched := projTechs.countP (fun pt =>
        allSkills.any (fun s => skillTechOverlap pt s))
      if projTechs.length > 0 ∧
         (matched : ℚ) / (projTechs.length : ℚ) < 3/10 then 1
      else 0
    else 0
  min (((ci1 + ci2 : ℕ) : ℚ) * 1) 5

/-- The red-flag deduction of `score_signal_consistency` (cv_ranking.py
lines 790-817). -/
def red_flag_deduction (c : Candidate) : ℚ :=
  let expTech := (c.experience.map Experience.technologies).flatten
  let allSkills := all_skills_of c.skills
  let flags : ℚ :=
    (if allSkills.length > 10 ∧ c.experience.length = 0 then 1 else 0) +
    (if expTech ≠ [] ∧ (expTech.map normalize_skill).dedup.length > 15 ∧
        c.experience.length < 3 then 1 else 0) +
    (if c.email = [] then 1/2 else 0)
  min (flags * (1/2)) 2

/-- `score_signal_consistency` (cv_ranking.py lines 682-824), score component
only: start from 10, subtract the three deductions, floor at 0. -/
def score_signal_consistency (c : Candidate) : ℚ :=
  round2 (max 0 (10 - coherence_deduction c - career_deduction c.experience -
    red_flag_deduction c))

/-- One entry of the ranked output of `rank_candidates` (cv_ranking.py lines
945-964): name, rounded total, the five component scores, the explanation
string, the rank (0 before the final rank-assignment loop, modelling the
dict without a `rank` key), and the original candidate record under
`raw_data`. -/
structure Ranked where
  candidate_name : Str
  total_score : ℚ
  experience_quality : ℚ
  technical_skills : ℚ
  projects_impact : ℚ
  education_certifications : ℚ
  signal_consistency : ℚ
  explanation : Str
  rank : ℕ
  raw_data : Candidate
deriving DecidableEq

/-- Python `max(entries, key=...)`: the first entry with the maximal key
(later entries replace the current best only when strictly greater). -/
def argmaxFirst (l : List (Str × ℚ)) : Option (Str × ℚ) :=
  match l with
  | [] => none
  | x :: xs => some (xs.foldl (fun b y => if y.2 > b.2 then y else b) x)

/-- Company-name shortening of the explanation builder (cv_ranking.py lines
905-906). -/
def truncate_company (name : Str) : Str :=
  if name.length > 30 then name.take 27 ++ ("...".data) else name

/-- The explanation string built by `rank_candidates` (cv_ranking.py lines
894-955). -/
def explanation_of (c : Candidate) (job : JobRequirements)
    (expScore techScore projScore sigScore : ℚ) : Str :=
  let p1 : List Str :=
    match argmaxFirst (exp_details c.experience job.role job.required_skills) with
    | none => []
    | some best =>
      let nm := truncate_company best.1
      if expScore ≥ 25 then [("+ Strong experience at ".data) ++ nm]
      else if expScore ≥ 15 then [("+ Good experience at ".data) ++ nm]
      else if expScore < 10 then [("- Limited experience".data)]
      else []
  let matched := tech_matched_detail c.skills job.required_skills
  let p2 : List Str :=
    if matched > 0 ∧ job.required_skills ≠ [] then
      let skillStr := List.intercalate ("/".data) (job.required_skills.take 2)
      if techScore ≥ 18 then [("+ High ".data) ++ skillStr ++ (" relevance".data)]
      else if techScore ≥ 12 then [("+ Good technical skills match".data)]
      else [("- Lower technical skills relevance".data)]
    else if techScore < 10 then [("- Lower technical skills relevance".data)]
    else []
  let p3 : List Str :=
    if projScore ≥ 15 then [("+ Strong projects".data)]
    else if projScore < 8 then [("- Fewer personal projects".data)]
    else []
  let p4 : List Str :=
    if sigScore < 7 then [("- CV consistency issues".data)] else []
  let parts := p1 ++ p2 ++ p3 ++ p4
  if parts = [] then ("Standard candidate profile".data)
  else List.intercalate (" | ".data) parts

/-- Scoring of one candidate inside the loop of `rank_candidates`
(cv_ranking.py lines 857-964). -/
def score_candidate (job : JobRequirements) (c : Candidate) : Ranked :=
  let expTech := (c.experience.map Experience.technologies).flatten
  let exps := score_experience_quality c.experience job.role job.required_skills
  let tech := score_technical_skills c.skills job.required_skills expTech
  let proj := score_projects_impact c.projects c.experience job.required_skills
  let edu := score_education_certifications c.education c.certifications job.field
  let sig := score_signal_consistency c
  { candidate_name := c.full_name,
    total_score := round2 (exps + tech + proj + edu + sig),
    experience_quality := exps,
    technical_skills := tech,
    projects_impact := proj,
    education_certifications := edu,
    signal_consistency := sig,
    explanation := explanation_of c job exps tech proj sig,
    rank := 0,
    raw_data := c }

/-- Stable descending insertion by `total_score`: an earlier element is
placed before every later element of equal total. -/
def insertRanked (x : Ranked) : List Ranked → List Ranked
  | [] => [x]
  | y :: ys =>
    if x.total_score ≥ y.total_score then x :: y :: ys else y :: insertRanked x ys

/-- `ranked_candidates.sort(key=..., reverse=True)` (cv_ranking.py line 967):
Python's sort is stable, and a stable descending sort is the unique
permutation that is descending with ties in original order, which this
insertion sort computes. -/
def sortRankedDesc : List Ranked → List Ranked
  | [] => []
  | x :: xs => insertRanked x (sortRankedDesc xs)

/-- The swap decision for one adjacent pair of the tie-break pass
(cv_ranking.py lines 975-993), with the source's nested conditions. -/
def cascadeSwap (cur nxt : Ranked) : Bool :=
  if 0 < cur.total_score - nxt.total_score ∧
     cur.total_score - nxt.total_score ≤ 2 then
    if cur.experience_quality < nxt.experience_quality then true
    else if cur.experience_quality = nxt.experience_quality ∧
            cur.technical_skills < nxt.technical_skills then true
    else if cur.experience_quality = nxt.experience_quality ∧
            cur.technical_skills = nxt.technical_skills ∧
            cur.projects_impact < nxt.projects_impact then true
    else false
  else false

/-- Body of the tie-break pass: `cur` is the element currently at position
`i`; a swap emits the next element and keeps `cur` moving down, otherwise
`cur` is emitted and the next element becomes current. -/
def tiebreak_go (cur : Ranked) : List Ranked → List Ranked
  | [] => [cur]
  | y :: rest =>
    if cascadeSwap cur y then y :: tiebreak_go cur rest
    else cur :: tiebreak_go y rest

/-- The sequential tie-break pass (cv_ranking.py lines 969-994): one forward
scan over adjacent pairs with in-place swaps; after handling positions
(i, i+1) the scan moves to (i+1, i+2) of the updated list. -/
def tiebreak_pass : List Ranked → List Ranked
  | [] => []
  | x :: rest => tiebreak_go x rest

/-- Rank assignment (cv_ranking.py lines 996-998): position + 1. -/
def assign_ranks (l : List Ranked) : List Ranked :=
  l.enum.map (fun p => { p.2 with rank := p.1 + 1 })

/-- The post-scoring phase of `rank_candidates`: stable descending sort,
tie-break pass, rank assignment (cv_ranking.py lines 966-998). -/
def rank_phase (l : List Ranked) : List Ranked :=
  assign_ranks (tiebreak_pass (sortRankedDesc l))

/-- `rank_candidates` (cv_ranking.py lines 831-1000). -/
def rank_candidates (candidates : List Candidate) (job : JobRequirements) :
    List Ranked :=
  rank_phase (candidates.map (score_candidate job))

/-- The all-empty skills record. -/
def emptySkills : Skills := ⟨[], [], [], [], [], [], [], []⟩

/-- A candidate whose roles carry both a junior and a senior keyword, with no
technologies, projects, skills or education, and a contact email: the career
progression bonus is its only signal adjustment. -/
def progressionCandidate : Candidate := {
  full_name := "A".data,
  email := ("a@b.c".data),
  experience := [
    { company := [], role := ("junior developer".data), period := [],
      duration := [], technologies := [] },
    { company := [], role := ("senior developer".data), period := [],
      duration := [], technologies := [] }],
  projects := [],
  skills := emptySkills,
  education := [],
  certifications := [] }

/-- A minimal project whose title contains "demo". -/
def demoProject : Project :=
  { title := ("demo app".data), description := [], technologies := [] }

/-- A candidate with four junior-only roles and nothing else that would
touch the signal score. -/
def juniorOnlyCandidate : Candidate := {
  full_name := "B".data,
  email := ("b@b.c".data),
  experience := [
    { company := [], role := ("junior developer".data), period := [],
      duration := [], technologies := [] },
    { company := [], role := ("intern".data), period := [],
      duration := [], technologies := [] },
    { company := [], role := ("trainee".data), period := [],
      duration := [], technologies := [] },
    { company := [], role := ("stagiaire".data), period := [],
      duration := [], technologies := [] }],
  projects := [],
  skills := emptySkills,
  education := [],
  certifications := [] }

/-- The tie-break cascade condition as the spec words it: the higher-ranked
candidate is strictly weaker on the first differing criterion of
experience_quality, then technical_skills, then projects_impact.  Stated
from the spec's words, to be compared with the source-derived
`cascadeSwap`. -/
def strictly_weaker_first_differing (cur nxt : Ranked) : Prop :=
  cur.experience_quality < nxt.experience_quality ∨
  (cur.experience_quality = nxt.experience_quality ∧
    cur.technical_skills < nxt.technical_skills) ∨
  (cur.experience_quality = nxt.experience_quality ∧
    cur.technical_skills = nxt.technical_skills ∧
    cur.projects_impact < nxt.projects_impact)

/-- A candidate record with empty content, used for concrete scored rows. -/
def dummyCandidate : Candidate :=
  { full_name := [], email := [], experience := [], projects := [],
    skills := emptySkills, education := [], certifications := [] }

/-- A scored row with total 80 and experience quality 20. -/
def rowA : Ranked :=
  { candidate_name := ("A".data), total_score := 80,
    experience_quality := 20, technical_skills := 0, projects_impact := 0,
    education_certifications := 0, signal_consistency := 0,
    explanation := [], rank := 0, raw_data := dummyCandidate }

/-- A scored row with total 79 and experience quality 25. -/
def rowB : Ranked :=
  { candidate_name := ("B".data), total_score := 79,
    experience_quality := 25, technical_skills := 0, projects_impact := 0,
    education_certifications := 0, signal_consistency := 0,
    explanation := [], rank := 0, raw_data := dummyCandidate }

/-- A skills record listing only the programming language "python". -/
def pySkills : Skills :=
  { programming_languages := [("python".data)], frameworks := [],
    web_technologies := [], mobile_technologies := [], databases := [],
    devops_tools := [], data_science := [], other := [] }

/-- C1: the claim that every component score lies in its declared range — in
particular `signal_consistency ∈ [0, 10]` — fails on the code.  For
`progressionCandidate` (roles with both a junior and a senior keyword, an
email, and no other signal adjustments) `rank_candidates` returns
`signal_consistency = 10.75 > 10`: the career-progression bonus of 0.75 is
added to the full starting score of 10 and `score_signal_consistency` floors
at 0 but, unlike every other scorer, never caps at its maximum.  This
contradicts the scorer's own docstring ("10 points total") and the report
format, which prints the value over "/10". -/
theorem C1_signal_consistency_exceeds_declared_bound :
    (rank_candidates [progressionCandidate] ⟨[], [], []⟩).map
      Ranked.signal_consistency = [43/4] ∧
    ¬ (∀ r ∈ rank_candidates [progressionCandidate] ⟨[], [], []⟩,
        r.signal_consistency ≤ 10) := by decide

/-- C2: the engine is a pure function of its in-memory inputs.  The
translated code contains no clock, randomness or ambient state (the recency
reference year 2026 is a hard-coded literal), so the embedding is a total
function and two evaluations of `rank_candidates` on the same candidate list
and job requirements yield identical component scores, total scores,
explanation strings and rank order. -/
theorem C2_rank_candidates_deterministic :
    ∀ (candidates : List Candidate) (job : JobRequirements),
      rank_candidates candidates job = rank_candidates candidates job :=
  fun _ _ => rfl

/-- C5 counterexample: with `required_skills` empty, a single "demo"-titled
project yields a raw accumulated score of 4 (the −2 fake penalty plus the
base 6 for low-quality projects) and a returned score of 4.0 — the raw score
is not negative and the result is not 0.0, refuting the claim as stated. -/
theorem C5_counterexample_demo_project_without_required_skills :
    projects_raw [demoProject] [] [] = 4 ∧
    score_projects_impact [demoProject] [] [] = 4 ∧
    ¬ (projects_raw [demoProject] [] [] < 0 ∧
       score_projects_impact [demoProject] [] [] = 0) := by decide

/-- C5 (amended): for every candidate, zero projects yield exactly 5.0; and
when `required_skills` is nonempty, a project list consisting of exactly one
project whose lowercased title contains "demo" yields a raw accumulated
score of −2 (negative) before the final clamp and a returned score of 0.0
after the floor clamp.  (With no required skills the −6 relevance penalty is
not applied and the same project list scores 4.0.) -/
theorem C5_amended_no_projects_and_demo_project :
    (∀ (experiences : List Experience) (required : List Str),
      score_projects_impact [] experiences required = 5) ∧
    (∀ (p : Project) (experiences : List Experience) (required : List Str),
      containsSub ("demo".data) (lowerStr p.title) = true →
      required ≠ [] →
      projects_raw [p] experiences required = -2 ∧
      score_projects_impact [p] experiences required = 0) := by
  constructor
  · intro experiences required
    simp [score_projects_impact]
  · intro p experiences required hdemo hreq
    have hfake : is_fake_project p = true := by
      simp [is_fake_project, fake_keywords, hdemo]
    have hraw : projects_raw [p] experiences required = -2 := by
      simp only [projects_raw, List.foldl, project_step, hfake, if_true]
      simp [projects_base, hreq]
    refine ⟨hraw, ?_⟩
    simp only [score_projects_impact, hraw]
    norm_num
    decide

/-- Witness for C5: the amended statement evaluated at the concrete demo
project with required skill "java". -/
theorem C5_amended_witness :
    projects_raw [demoProject] [] [("java".data)] = -2 ∧
    score_projects_impact [demoProject] [] [("java".data)] = 0 :=
  C5_amended_no_projects_and_demo_project.2 demoProject [] [("java".data)]
    (by decide) (by decide)

/-- C6 counterexample: an experience entry with an empty period string and no
usable duration string is indeterminate, but `extract_duration_months`
returns 0.0 for it (the `if not period: return 0.0` guard), not the claimed
minimum of 2. -/
theorem C6_counterexample_empty_period :
    extract_duration_months [] [] = 0 ∧
    ¬ (2 ≤ extract_duration_months [] []) := by decide

/-- C6 (amended): for every experience entry whose duration string yields no
duration-regex match and whose period string is nonempty but unresolvable
(no "present"/"en cours"/"in progress" marker, fewer than two 20xx year
matches, fewer than two month names), `extract_duration_months` returns
exactly 2, the indeterminate-entry minimum; an entirely empty period string
(with no usable duration) instead returns 0. -/
theorem C6_amended_indeterminate_duration_defaults :
    (∀ (period duration : Str),
      findMonthsNum (lowerStr duration) = none →
      period ≠ [] →
      (containsSub ("present".data) (lowerStr period) ||
       containsSub ("en cours".data) (lowerStr period) ||
       containsSub ("in progress".data) (lowerStr period)) = false →
      (findYears period).length < 2 →
      (monthsFound (lowerStr period)).length < 2 →
      extract_duration_months period duration = 2) ∧
    (∀ duration : Str,
      findMonthsNum (lowerStr duration) = none →
      extract_duration_months [] duration = 0) := by
  constructor
  · intro period duration hdur hper hpres hyears hmonths
    have hfrom : (if duration ≠ [] then findMonthsNum (lowerStr duration)
        else none) = none := by
      by_cases h : duration = [] <;> simp [h, hdur]
    rw [extract_duration_months, hfrom]
    simp only [hper, if_false, if_neg (by exact hper)]
    rw [if_neg (by simp [hpres])]
    rcases hy : findYears period with _ | ⟨y1, _ | ⟨y2, ys⟩⟩
    · rcases hm : monthsFound (lowerStr period) with _ | ⟨m1, _ | ⟨m2, ms⟩⟩
      · simp [hy, hm]
      · simp [hy, hm]
      · exact absurd (by rw [hm]; simp) (by omega : ¬ 2 ≤ (monthsFound (lowerStr period)).length)
    · rcases hm : monthsFound (lowerStr period) with _ | ⟨m1, _ | ⟨m2, ms⟩⟩
      · simp [hy, hm]
      · simp [hy, hm]
      · exact absurd (by rw [hm]; simp) (by omega : ¬ 2 ≤ (monthsFound (lowerStr period)).length)
    · exact absurd (by rw [hy]; simp) (by omega : ¬ 2 ≤ (findYears period).length)
  · intro duration hdur
    have hfrom : (if duration ≠ [] then findMonthsNum (lowerStr duration)
        else none) = none := by
      by_cases h : duration = [] <;> simp [h, hdur]
    rw [extract_duration_months, hfrom]
    simp

/-- Witness for C6: the amended statement evaluated at the unresolvable
period "unknown dates" and at the empty period. -/
theorem C6_amended_witness :
    extract_duration_months ("unknown dates".data) [] = 2 ∧
    extract_duration_months [] ("n/a".data) = 0 :=
  ⟨C6_amended_indeterminate_duration_defaults.1 ("unknown dates".data) []
      (by decide) (by decide) (by decide) (by decide) (by decide),
    C6_amended_indeterminate_duration_defaults.2 ("n/a".data) (by decide)⟩

/-- C7: career-logic adjustments of `score_signal_consistency`.  A candidate
whose role strings contain both a junior and a senior keyword gets an issue
count of −0.5 and, after the ×1.5 scaling clamped to [−1.5, 3], a career
deduction of −0.75, i.e. a net +0.75 bonus added back to the signal score; a
candidate with more than 3 experiences whose roles contain a junior but no
senior keyword gets 0.75 deducted. -/
theorem C7_career_logic_adjustments :
    (∀ c : Candidate,
      has_junior_kw c.experience = true →
      has_senior_kw c.experience = true →
      career_issues c.experience = -(1/2) ∧
      career_deduction c.experience = -(3/4) ∧
      score_signal_consistency c =
        round2 (max 0 (10 - coherence_deduction c - red_flag_deduction c + 3/4))) ∧
    (∀ c : Candidate,
      c.experience.length > 3 →
      has_junior_kw c.experience = true →
      has_senior_kw c.experience = false →
      career_deduction c.experience = 3/4) := by
  constructor
  · intro c hj hs
    have hissues : career_issues c.experience = -(1/2) := by
      simp [career_issues, hj, hs]
    have hded : career_deduction c.experience = -(3/4) := by
      rw [career_deduction, hissues]
      norm_num
    refine ⟨hissues, hded, ?_⟩
    rw [score_signal_consistency, hded]
    ring_nf
  · intro c hlen hj hs
    have hissues : career_issues c.experience = 1/2 := by
      simp [career_issues, hj, hs, hlen]
    rw [career_deduction, hissues]
    norm_num

/-- Witness for C7: both parts evaluated at concrete candidates. -/
theorem C7_witness :
    career_deduction progressionCandidate.experience = -(3/4) ∧
    career_deduction juniorOnlyCandidate.experience = 3/4 :=
  ⟨(C7_career_logic_adjustments.1 progressionCandidate (by decide)
      (by decide)).2.1,
    C7_career_logic_adjustments.2 juniorOnlyCandidate (by decide) (by decide)
      (by decide)⟩

/-- The first tier of `COMPANY_TIERS` wins whenever one of its keywords is a
substring of the normalized company name (the source scans tiers in table
order). -/
theorem get_company_tier_of_tier1_keyword (company : Str)
    (h : tier1_companies.any
      (fun kw => containsSub kw (normalize_company_name company)) = true) :
    get_company_tier company = (("tier1".data), 1) := by
  have hfind : List.find? (fun t => t.2.1.any
      (fun kw => containsSub kw (normalize_company_name company)))
      COMPANY_TIERS = some ((("tier1".data), tier1_companies, 1)) := by
    rw [COMPANY_TIERS]
    exact List.find?_cons_of_pos _ h
  rw [get_company_tier, hfind]

/-- C8: company-reputation scoring.  A company whose normalized name contains
a tier-1 keyword gets multiplier 1.0 and a company-reputation part of
exactly 15.0; a company matching no keyword of any tier falls to the default
tier 5 with multiplier 0.33 and a company-reputation part of 15 × 0.33
(= 4.95). -/
theorem C8_company_tier_multipliers :
    (∀ company : Str,
      tier1_companies.any
        (fun kw => containsSub kw (normalize_company_name company)) = true →
      get_company_tier company = (("tier1".data), 1) ∧
      company_part company = 15) ∧
    (∀ company : Str,
      COMPANY_TIERS.all (fun t => t.2.1.all
        (fun kw => !containsSub kw (normalize_company_name company))) = true →
      get_company_tier company = (("tier5".data), 33/100) ∧
      company_part company = 15 * (33/100)) := by
  constructor
  · intro company h
    have htier := get_company_tier_of_tier1_keyword company h
    refine ⟨htier, ?_⟩
    rw [company_part, htier]
    norm_num
  · intro company h
    have hall := List.all_eq_true.mp h
    have hnone : COMPANY_TIERS.find? (fun t => t.2.1.any
        (fun kw => containsSub kw (normalize_company_name company))) = none := by
      rw [List.find?_eq_none]
      intro t ht hx
      rcases List.any_eq_true.mp hx with ⟨kw, hkw, hc⟩
      have hfalse := List.all_eq_true.mp (hall t ht) kw hkw
      rw [Bool.not_eq_true'] at hfalse
      rw [hfalse] at hc
      cases hc
    have htier : get_company_tier company = (("tier5".data), 33/100) := by
      rw [get_company_tier, hnone]
    refine ⟨htier, ?_⟩
    rw [company_part, htier]

/-- Witness for C8: "Google" hits tier 1; "foobar ltd" matches no tier
keyword and falls to the 0.33 default. -/
theorem C8_witness :
    get_company_tier ("Google".data) = (("tier1".data), 1) ∧
    company_part ("foobar ltd".data) = 15 * (33/100) :=
  ⟨(C8_company_tier_multipliers.1 ("Google".data) (by decide)).1,
    (C8_company_tier_multipliers.2 ("foobar ltd".data) (by decide)).2⟩

/-- A non-whitespace character survives `dropWhile isWsChar`. -/
theorem mem_dropWhile_ws_of_mem {c : Char} {l : Str} (h : c ∈ l)
    (hc : isWsChar c = false) : c ∈ l.dropWhile isWsChar := by
  induction l with
  | nil => cases h
  | cons a t ih =>
    rw [List.dropWhile_cons]
    by_cases ha : isWsChar a = true
    · rcases List.mem_cons.mp h with rfl | hmem
      · rw [hc] at ha; cases ha
      · simp [ha, ih hmem]
    · simp only [ha, if_false, Bool.false_eq_true]
      exact h

/-- A non-whitespace character survives `stripStr`. -/
theorem mem_stripStr_of_mem {c : Char} {l : Str} (h : c ∈ l)
    (hc : isWsChar c = false) : c ∈ stripStr l := by
  rw [stripStr, List.mem_reverse]
  exact mem_dropWhile_ws_of_mem (List.mem_reverse.mpr
    (mem_dropWhile_ws_of_mem h hc)) hc

/-- A one-character needle is a substring exactly when the character occurs. -/
theorem containsSub_singleton_of_mem {c : Char} {l : Str} (h : c ∈ l) :
    containsSub [c] l = true := by
  induction l with
  | nil => cases h
  | cons a t ih =>
    rw [containsSub]
    rcases List.mem_cons.mp h with rfl | hmem
    · simp [isPrefixStr]
    · simp [ih hmem]

/-- C10: because the tier-1 keyword list contains the single letter "x"
(intended for the company X, formerly Twitter) and matching is substring
containment, every company whose lowercased name contains the letter `x`
anywhere is classified as tier 1 with multiplier 1.0 and receives the
maximum company-reputation part 15.0, never reaching lower tiers or the
unknown-company default. -/
theorem C10_any_company_containing_x_is_tier1 :
    ∀ company : Str, 'x' ∈ lowerStr company →
      get_company_tier company = (("tier1".data), 1) ∧
      company_part company = 15 := by
  intro company hx
  have hmem : 'x' ∈ normalize_company_name company :=
    mem_stripStr_of_mem hx (by decide)
  have hany : tier1_companies.any
      (fun kw => containsSub kw (normalize_company_name company)) = true :=
    List.any_eq_true.mpr ⟨("x".data), by decide,
      containsSub_singleton_of_mem hmem⟩
  have htier := get_company_tier_of_tier1_keyword company hany
  refine ⟨htier, ?_⟩
  rw [company_part, htier]
  norm_num

/-- Witness for C10: "Xerox" (no tier-1 company, but its lowercased name
contains an x) gets tier 1 and the full 15-point company part. -/
theorem C10_witness :
    get_company_tier ("Xerox".data) = (("tier1".data), 1) ∧
    company_part ("Xerox".data) = 15 :=
  C10_any_company_containing_x_is_tier1 ("Xerox".data) (by decide)

/-- The tie-break body preserves length. -/
theorem tiebreak_go_length (cur : Ranked) (l : List Ranked) :
    (tiebreak_go cur l).length = l.length + 1 := by
  induction l generalizing cur with
  | nil => rfl
  | cons y rest ih =>
    rw [tiebreak_go]
    by_cases h : cascadeSwap cur y = true
    · simp [h, ih]
    · simp [h, ih]

/-- The tie-break pass preserves length. -/
theorem tiebreak_pass_length (l : List Ranked) :
    (tiebreak_pass l).length = l.length := by
  cases l with
  | nil => rfl
  | cons x rest =>
    rw [tiebreak_pass, tiebreak_go_length]
    rfl

/-- Insertion preserves length. -/
theorem insertRanked_length (x : Ranked) (l : List Ranked) :
    (insertRanked x l).length = l.length + 1 := by
  induction l with
  | nil => rfl
  | cons y ys ih =>
    rw [insertRanked]
    by_cases h : x.total_score ≥ y.total_score
    · simp [h]
    · simp [h, ih]

/-- Sorting preserves length. -/
theorem sortRankedDesc_length (l : List Ranked) :
    (sortRankedDesc l).length = l.length := by
  induction l with
  | nil => rfl
  | cons x xs ih =>
    rw [sortRankedDesc, insertRanked_length, ih]
    rfl

/-- The enumerated rank values are consecutive. -/
theorem enumFrom_map_rank_succ (l : List Ranked) (k : ℕ) :
    (List.enumFrom k l).map
      (fun p => ({ p.2 with rank := p.1 + 1 } : Ranked).rank) =
    List.range' (k + 1) l.length := by
  induction l generalizing k with
  | nil => rfl
  | cons x rest ih =>
    simp [List.enumFrom, List.range', ih (k + 1)]

/-- The rank fields of `assign_ranks` are `1, 2, …, n`. -/
theorem assign_ranks_map_rank (l : List Ranked) :
    (assign_ranks l).map Ranked.rank = List.range' 1 l.length := by
  rw [assign_ranks, List.map_map]
  exact enumFrom_map_rank_succ l 0

/-- C4: behaviour of the tie-break pass after the stable descending sort.
(i) The swap decision for an adjacent pair holds exactly when the pair's
total-score difference lies in (0, 2] and the higher-ranked candidate is
strictly weaker on the first differing criterion of the cascade
experience_quality, technical_skills, projects_impact.  (ii) For two scored
candidates with totals 80.0 and 79.0 where the second has strictly higher
experience_quality, the second ends up ranked above the first.  (iii) Final
ranks are assigned 1..N after the pass. -/
theorem C4_tiebreak_cascade_behaviour :
    (∀ cur nxt : Ranked,
      cascadeSwap cur nxt = true ↔
        (0 < cur.total_score - nxt.total_score ∧
         cur.total_score - nxt.total_score ≤ 2 ∧
         strictly_weaker_first_differing cur nxt)) ∧
    (∀ a b : Ranked,
      a.total_score = 80 → b.total_score = 79 →
      a.experience_quality < b.experience_quality →
      rank_phase [a, b] = [{ b with rank := 1 }, { a with rank := 2 }]) ∧
    (∀ l : List Ranked,
      (rank_phase l).map Ranked.rank = List.range' 1 l.length) := by
  refine ⟨?_, ?_, ?_⟩
  · intro cur nxt
    rw [cascadeSwap, strictly_weaker_first_differing]
    split_ifs with h1 h2 h3 h4 <;> simp_all
  · intro a b h80 h79 hexp
    have hsort : sortRankedDesc [a, b] = [a, b] := by
      rw [sortRankedDesc, sortRankedDesc, sortRankedDesc, insertRanked,
        insertRanked]
      rw [if_pos (by rw [h80, h79]; norm_num)]
    have hswap : cascadeSwap a b = true := by
      rw [cascadeSwap, if_pos (by rw [h80, h79]; norm_num)]
      rw [if_pos hexp]
    rw [rank_phase, hsort, tiebreak_pass, tiebreak_go, if_pos hswap,
      tiebreak_go]
    simp [assign_ranks, List.enum, List.enumFrom]
  · intro l
    rw [rank_phase, assign_ranks_map_rank, tiebreak_pass_length,
      sortRankedDesc_length]

/-- Witness for C4: the swap characterization and the 80.0/79.0 scenario at
the concrete rows `rowA`, `rowB`. -/
theorem C4_witness :
    cascadeSwap rowA rowB = true ∧
    rank_phase [rowA, rowB] = [{ rowB with rank := 1 }, { rowA with rank := 2 }] :=
  ⟨(C4_tiebreak_cascade_behaviour.1 rowA rowB).mpr
      ⟨by decide, by decide, Or.inl (by decide)⟩,
    C4_tiebreak_cascade_behaviour.2.1 rowA rowB (by decide) (by decide)
      (by decide)⟩

/-- Inserting permutes to consing. -/
theorem insertRanked_perm (x : Ranked) (l : List Ranked) :
    (insertRanked x l).Perm (x :: l) := by
  induction l with
  | nil => exact List.Perm.refl _
  | cons y ys ih =>
    rw [insertRanked]
    by_cases h : x.total_score ≥ y.total_score
    · simp only [h, if_true]
      exact List.Perm.refl _
    · simp only [h, if_false, Bool.false_eq_true]
      exact (ih.cons y).trans (List.Perm.swap x y ys)

/-- The sort is a permutation. -/
theorem sortRankedDesc_perm (l : List Ranked) : (sortRankedDesc l).Perm l := by
  induction l with
  | nil => exact List.Perm.refl _
  | cons x xs ih =>
    exact (insertRanked_perm x (sortRankedDesc xs)).trans (ih.cons x)

/-- The tie-break body is a permutation of current element plus rest. -/
theorem tiebreak_go_perm (cur : Ranked) (l : List Ranked) :
    (tiebreak_go cur l).Perm (cur :: l) := by
  induction l generalizing cur with
  | nil => exact List.Perm.refl _
  | cons y ys ih =>
    rw [tiebreak_go]
    by_cases h : cascadeSwap cur y = true
    · simp only [h, if_true]
      exact ((ih cur).cons y).trans (List.Perm.swap cur y ys)
    · simp only [h, if_false, Bool.false_eq_true]
      exact (ih y).cons cur

/-- The tie-break pass is a permutation. -/
theorem tiebreak_pass_perm (l : List Ranked) : (tiebreak_pass l).Perm l := by
  cases l with
  | nil => exact List.Perm.refl _
  | cons x rest => exact tiebreak_go_perm x rest

/-- Rank assignment does not change the attached raw candidate records. -/
theorem enumFrom_map_raw (l : List Ranked) (k : ℕ) :
    (List.enumFrom k l).map
      (fun p => ({ p.2 with rank := p.1 + 1 } : Ranked).raw_data) =
    l.map Ranked.raw_data := by
  induction l generalizing k with
  | nil => rfl
  | cons x rest ih =>
    simp [List.enumFrom, ih (k + 1)]

/-- `assign_ranks` preserves the raw-data column. -/
theorem assign_ranks_map_raw (l : List Ranked) :
    (assign_ranks l).map Ranked.raw_data = l.map Ranked.raw_data := by
  rw [assign_ranks, List.map_map]
  exact enumFrom_map_raw l 0

/-- C9: `rank_candidates` never mutates its input — the embedding is a pure
function in which every candidate access is a non-destructive read — and
each returned entry carries the original candidate record unchanged under
`raw_data`: the multiset of echoed records is exactly the input list (the
sort and tie-break pass only permute them). -/
theorem C9_raw_data_echoes_input :
    ∀ (candidates : List Candidate) (job : JobRequirements),
      ((rank_candidates candidates job).map Ranked.raw_data).Perm candidates := by
  intro cands job
  rw [rank_candidates, rank_phase, assign_ranks_map_raw]
  have h1 := (tiebreak_pass_perm
    (sortRankedDesc (cands.map (score_candidate job)))).map Ranked.raw_data
  have h2 := (sortRankedDesc_perm
    (cands.map (score_candidate job))).map Ranked.raw_data
  have h3 : (cands.map (score_candidate job)).map Ranked.raw_data = cands := by
    rw [List.map_map]
    have hid : Ranked.raw_data ∘ score_candidate job = id := funext fun c => rfl
    rw [hid, List.map_id]
  rw [h3] at h2
  exact h1.trans h2

/-- `qfloor` agrees with the integer floor. -/
theorem qfloor_eq_floor (q : ℚ) : qfloor q = ⌊q⌋ := by
  rw [Rat.floor_def, qfloor]
  exact Int.fdiv_eq_ediv _ (Int.natCast_nonneg _)

/-- Round-half-to-even is monotone. -/
theorem roundHalfEven_mono {a b : ℚ} (h : a ≤ b) :
    roundHalfEven a ≤ roundHalfEven b := by
  have hf : ⌊a⌋ ≤ ⌊b⌋ := Int.floor_mono h
  have hfa : (⌊a⌋ : ℚ) ≤ a := Int.floor_le a
  have hfb : (⌊b⌋ : ℚ) ≤ b := Int.floor_le b
  have hfa2 : a < ⌊a⌋ + 1 := Int.lt_floor_add_one a
  have hfb2 : b < ⌊b⌋ + 1 := Int.lt_floor_add_one b
  rw [roundHalfEven, roundHalfEven]
  simp only [qfloor_eq_floor]
  rcases lt_or_eq_of_le hf with hlt | heq
  · split_ifs <;> omega
  · rw [heq] at hfa hfa2 ⊢
    split_ifs <;> first | omega | (exfalso; linarith)

/-- `round2` is monotone. -/
theorem round2_mono {a b : ℚ} (h : a ≤ b) : round2 a ≤ round2 b := by
  rw [round2, round2]
  have h100 : a * 100 ≤ b * 100 := by linarith
  have hr : ((roundHalfEven (a * 100) : ℤ) : ℚ) ≤
      ((roundHalfEven (b * 100) : ℤ) : ℚ) := by
    exact_mod_cast roundHalfEven_mono h100
  gcongr

/-- Appending one more required skill that the candidate list matches adds
exactly one to the matched count and one to the required total. -/
theorem match_skills_append_matched (cand req : List Str) (s : Str)
    (h : skillMatchOne (cand.map normalize_skill) (normalize_skill s) = true) :
    match_skills cand (req ++ [s]) =
      ((match_skills cand req).1 + 1, req.length + 1) := by
  by_cases hreq : req = []
  · subst hreq
    simp [match_skills, h]
  · rw [match_skills, match_skills, if_neg (by simp), if_neg hreq]
    simp [List.map_append, List.countP_append, List.countP_cons, h]

/-- The matched count never exceeds the required total. -/
theorem match_skills_fst_le (cand req : List Str) :
    (match_skills cand req).1 ≤ req.length := by
  rw [match_skills]
  by_cases hreq : req = []
  · simp [hreq]
  · rw [if_neg hreq]
    calc ((req.map normalize_skill).countP _) ≤ (req.map normalize_skill).length :=
          List.countP_le_length _
      _ = req.length := List.length_map _ _

/-- For `m ≤ t` with `t` positive, `m/t ≤ (m+1)/(t+1)`. -/
theorem ratio_le_succ {m t : ℕ} (hmt : m ≤ t) (ht : 0 < t) :
    (m : ℚ) / (t : ℚ) ≤ ((m : ℚ) + 1) / ((t : ℚ) + 1) := by
  have h1 : (m : ℚ) ≤ (t : ℚ) := by exact_mod_cast hmt
  have h2 : (0 : ℚ) < (t : ℚ) := by exact_mod_cast ht
  rw [div_le_div_iff₀ h2 (by linarith)]
  nlinarith

/-- Appending an already-matched required skill cannot decrease the
core-skills part of the technical score. -/
theorem tech_core_append_matched (allSkills req : List Str) (s : Str)
    (h : skillMatchOne (allSkills.map normalize_skill) (normalize_skill s) = true) :
    tech_core allSkills req ≤ tech_core allSkills (req ++ [s]) := by
  have hm := match_skills_append_matched allSkills req s h
  by_cases hreq : req = []
  · subst hreq
    have hRHS : tech_core allSkills ([] ++ [s]) = 15 := by
      rw [tech_core, if_pos (by simp), hm]
      norm_num [match_skills]
    rw [hRHS, tech_core, if_neg (by simp)]
    calc min 10 ((allSkills.length : ℚ) * (1/2)) ≤ 10 := min_le_left _ _
      _ ≤ 15 := by norm_num
  · have ht : 0 < req.length := List.length_pos.mpr hreq
    have hmle := match_skills_fst_le allSkills req
    have hsnd : (match_skills allSkills req).2 = req.length := by
      rw [match_skills, if_neg hreq]
    rw [tech_core, tech_core, if_pos hreq, if_pos (by simp : ¬(req ++ [s]) = []),
      hm, if_pos (by rw [hsnd]; omega), if_pos (by omega : req.length + 1 > 0),
      hsnd]
    rw [mul_div_assoc, mul_div_assoc]
    apply mul_le_mul_of_nonneg_left _ (by norm_num)
    push_cast
    exact ratio_le_succ hmle ht

/-- With no required skills the role-relevance part never exceeds 10. -/
theorem role_part_no_required_le_ten (jobRole role : Str)
    (techs : List Str) :
    role_part jobRole [] role techs ≤ 10 := by
  rw [role_part, if_neg (by simp)]
  by_cases hrole : jobRole ≠ []
  · rw [if_pos hrole]
    by_cases hmc : role_kw_matches jobRole role > 0
    · rw [if_pos hmc]
      have hmcle : role_kw_matches jobRole role ≤
          max (splitWs (normalize_company_name jobRole)).length 1 :=
        le_trans (List.length_filter_le _ _) (le_max_left _ 1)
      have hmx1 : 1 ≤ max (splitWs (normalize_company_name jobRole)).length 1 :=
        le_max_right _ 1
      have hmxpos : (0 : ℚ) <
          ((max (splitWs (normalize_company_name jobRole)).length 1 : ℕ) : ℚ) := by
        exact_mod_cast lt_of_lt_of_le Nat.zero_lt_one hmx1
      rw [div_le_iff₀ hmxpos]
      have hc : ((role_kw_matches jobRole role : ℕ) : ℚ) ≤
          ((max (splitWs (normalize_company_name jobRole)).length 1 : ℕ) : ℚ) := by
        exact_mod_cast hmcle
      nlinarith
    · rw [if_neg hmc]
      norm_num
  · rw [if_neg hrole]
    norm_num

/-- C3 counterexample: the candidate lists the skill "python" (so the added
required skill "python" is matched by the candidate's listed skills, first
conjunct), but the experience entry's technologies are only ["Java"]; the
role-relevance part matches required skills against the experience's
technologies, not the candidate's skill list, so appending "python" to
required_skills drops that experience's role-relevance part from 10 to 5. -/
theorem C3_counterexample_role_relevance_decreases :
    (match_skills [("python".data)] [("python".data)]).1 = 1 ∧
    role_part [] [("Java".data)] [] [("Java".data)] = 10 ∧
    role_part [] [("Java".data), ("python".data)] [] [("Java".data)] = 5 ∧
    ¬ (role_part [] [("Java".data)] [] [("Java".data)] ≤
       role_part [] [("Java".data), ("python".data)] [] [("Java".data)]) := by
  decide

/-- C3 (amended): appending one required skill that the candidate's listed
skills match never decreases `score_technical_skills`; and the
role-relevance part of an experience never decreases when the appended
skill is matched by that experience's own technologies.  (A skill matched
only by the candidate's listed skills can decrease the role-relevance part,
which matches against the experience's technologies — see the
counterexample.) -/
theorem C3_amended_monotonicity :
    (∀ (skills : Skills) (expTech : List Str) (required : List Str) (s : Str),
      skillMatchOne ((all_skills_of skills).map normalize_skill)
        (normalize_skill s) = true →
      score_technical_skills skills required expTech ≤
        score_technical_skills skills (required ++ [s]) expTech) ∧
    (∀ (jobRole : Str) (required : List Str) (role : Str)
        (techs : List Str) (s : Str),
      skillMatchOne (techs.map normalize_skill) (normalize_skill s) = true →
      role_part jobRole required role techs ≤
        role_part jobRole (required ++ [s]) role techs) := by
  constructor
  · intro skills expTech required s h
    rw [score_technical_skills, score_technical_skills]
    by_cases hall : all_skills_of skills = []
    · rw [if_pos hall, if_pos hall]
    · rw [if_neg hall, if_neg hall]
      apply round2_mono
      exact min_le_min
        (add_le_add_right (tech_core_append_matched _ _ _ h) _) le_rfl
  · intro jobRole required role techs s h
    have htechs : techs ≠ [] := by
      intro he
      rw [he] at h
      simp [skillMatchOne] at h
    have hm := match_skills_append_matched techs required s h
    by_cases hreq : required = []
    · subst hreq
      have hRHS : role_part jobRole ([] ++ [s]) role techs = 10 := by
        rw [role_part, if_pos ⟨by simp, htechs⟩, hm]
        norm_num [match_skills]
      rw [hRHS]
      exact role_part_no_required_le_ten jobRole role techs
    · have ht : 0 < required.length := List.length_pos.mpr hreq
      have hmle := match_skills_fst_le techs required
      have hsnd : (match_skills techs required).2 = required.length := by
        rw [match_skills, if_neg hreq]
      rw [role_part, role_part, if_pos (⟨hreq, htechs⟩ :
          required ≠ [] ∧ techs ≠ []),
        if_pos (⟨by simp, htechs⟩ : (required ++ [s]) ≠ [] ∧ techs ≠ []), hm,
        if_pos (by omega : (match_skills techs required).1 + 1 > 0)]
      by_cases hpos : (match_skills techs required).1 > 0
      · rw [if_pos hpos, hsnd]
        rw [mul_div_assoc, mul_div_assoc]
        apply mul_le_mul_of_nonneg_left _ (by norm_num)
        push_cast
        exact ratio_le_succ hmle ht
      · rw [if_neg hpos]
        positivity

/-- Witness for C3 (amended): both monotonicity parts at concrete inputs. -/
theorem C3_amended_witness :
    score_technical_skills pySkills [("Java".data)] [] ≤
      score_technical_skills pySkills ([("Java".data)] ++ [("python".data)]) [] ∧
    role_part [] [("Java".data)] [] [("Java".data)] ≤
      role_part [] ([("Java".data)] ++ [("Java".data)]) [] [("Java".data)] :=
  ⟨C3_amended_monotonicity.1 pySkills [] [("Java".data)] ("python".data)
      (by decide),
    C3_amended_monotonicity.2 [] [("Java".data)] [] [("Java".data)]
      ("Java".data) (by decide)⟩

